import Mathlib

set_option maxRecDepth 16384

deriving instance DecidableEq for Except

/-!
Verification of the SiHAS device-communication layer: a shallow embedding of
the packet codec (`packet_builder.py`, `util.py`), the UDP transport client
(`sender.py`) and the device-session / debounced-poll-cache layer
(`sihas_base.py`, `util.py`).

Bytes are modelled as `List Nat` (each element a byte value).  Python
operations that can raise are modelled with `Except PExc`, where `PExc`
enumerates the exception classes that the relevant code paths can produce.
Python slicing (which clamps to the string bounds and never raises) is
modelled by `pySlice` / `pySliceI`; Python indexing (which raises
`IndexError` out of bounds) is modelled by `pyIndex`.
-/

/-- Exceptions (Python exception classes) that the embedded code can raise.
`indexError` models `IndexError` from an out-of-bounds `p[i]`;
`typeError` models the `TypeError` raised by bytes `%`-formatting;
`valueError` models `ValueError`; `unicodeDecodeError` models a failing
`bytes.decode("utf-8")`; `bytesFormatNotModelled` marks inputs containing a
`0x25` byte, for which the source expression `p % 2` performs Python
bytes-formatting whose result is not modelled here (no theorem below touches
such inputs); `modbusNotEnabled` and `packetSize` model the repository's
`ModbusNotEnabledError` and `PacketSizeError(expect, actual)`. -/
inductive PExc where
  | indexError : PExc
  | typeError : PExc
  | valueError : PExc
  | unicodeDecodeError : PExc
  | bytesFormatNotModelled : PExc
  | modbusNotEnabled : PExc
  | packetSize (expect actual : Nat) : PExc
deriving DecidableEq, Repr

/-- Python `p[i]` on bytes: the byte at `i`, or `IndexError` out of bounds
(only non-negative indices occur in the embedded code). -/
def pyIndex (p : List Nat) (i : Nat) : Except PExc Nat :=
  if h : i < p.length then .ok (p.get ⟨i, h⟩) else .error .indexError

/-- Python `p[a:b]` on bytes for non-negative `a`, `b`: clamps both bounds to
the length and never raises. -/
def pySlice (p : List Nat) (a b : Nat) : List Nat :=
  (p.take b).drop a

/-- Python `p[a:b]` with possibly negative (end-relative) bounds. -/
def pySliceI (p : List Nat) (a b : Int) : List Nat :=
  let n : Int := p.length
  let lo : Nat := (if a < 0 then max (n + a) 0 else a).toNat
  let hi : Nat := (if b < 0 then max (n + b) 0 else b).toNat
  (p.take hi).drop lo

/-- Python `int.from_bytes(b, "big")`. -/
def fromBytesBE (b : List Nat) : Nat :=
  b.foldl (fun acc x => acc * 256 + x) 0

/-- Python `n.to_bytes(2, "big")`, for `n < 65536` (the only calls in the
source pass a sequence id `≤ 255` or the constant lengths `6`, `0`, `64`). -/
def toBytes2BE (n : Nat) : List Nat :=
  [n / 256 % 256, n % 256]

/-! ## `util.BytesConv.ball_u16`

The source reads

```python
if p % 2:
    raise ValueError("length of p must be multiple of 2")
return [int.from_bytes(p[i : i + 2], endian) for i in range(0, len(p), 2)]
```

The guard applies Python bytes `%`-formatting of `p` with argument `2`
(it does not compute `len(p) % 2`).  For every byte string containing no
`0x25` (the `%` character) this raises
`TypeError: not all arguments converted during bytes formatting`, so the
function never reaches the decode loop on such inputs.  Inputs containing
`0x25` depend on `%`-format parsing and are mapped to the explicit marker
`bytesFormatNotModelled`; no theorem below evaluates `ball_u16` there. -/
def ball_u16 (p : List Nat) : Except PExc (List Nat) :=
  if 0x25 ∈ p then .error .bytesFormatNotModelled
  else .error .typeError

/-! ## UTF-8 validity (for `Meta._to_null_terminate_string`'s `.decode("utf-8")`) -/

/-- Is `b` a UTF-8 continuation byte `0x80..0xBF`? -/
def utf8Cont (b : Nat) : Bool :=
  0x80 ≤ b && b ≤ 0xBF

/-- Fuel-indexed UTF-8 validity check (standard UTF-8: no overlong forms, no
surrogates, maximum U+10FFFF), matching what Python's strict
`bytes.decode("utf-8")` accepts.  The fuel is initialised to the list length
and each step consumes at least one byte, so the fuel never runs out. -/
def validUtf8Aux : Nat → List Nat → Bool
  | 0, l => l.isEmpty
  | _ + 1, [] => true
  | fuel + 1, b :: rest =>
    if b ≤ 0x7F then validUtf8Aux fuel rest
    else
      match rest with
      | [] => false
      | c :: r =>
        if 0xC2 ≤ b && b ≤ 0xDF then utf8Cont c && validUtf8Aux fuel r
        else
          match r with
          | [] => false
          | d :: r2 =>
            if b == 0xE0 then
              (0xA0 ≤ c && c ≤ 0xBF) && utf8Cont d && validUtf8Aux fuel r2
            else if (0xE1 ≤ b && b ≤ 0xEC) || b == 0xEE || b == 0xEF then
              utf8Cont c && utf8Cont d && validUtf8Aux fuel r2
            else if b == 0xED then
              (0x80 ≤ c && c ≤ 0x9F) && utf8Cont d && validUtf8Aux fuel r2
            else
              match r2 with
              | [] => false
              | e :: r3 =>
                if b == 0xF0 then
                  (0x90 ≤ c && c ≤ 0xBF) && utf8Cont d && utf8Cont e &&
                    validUtf8Aux fuel r3
                else if 0xF1 ≤ b && b ≤ 0xF3 then
                  utf8Cont c && utf8Cont d && utf8Cont e && validUtf8Aux fuel r3
                else if b == 0xF4 then
                  (0x80 ≤ c && c ≤ 0x8F) && utf8Cont d && utf8Cont e &&
                    validUtf8Aux fuel r3
                else false

/-- Does `bytes(l).decode("utf-8")` succeed? -/
def validUtf8 (l : List Nat) : Bool :=
  validUtf8Aux l.length l

/-! ## Push-packet structures (`packet_builder.py`) -/

/-- Model of `Meta._to_null_terminate_string`: the byte prefix before the first `0`
byte (the whole string when no `0` occurs); the source then decodes it as
UTF-8. -/
def toNullTerminated (p : List Nat) : List Nat :=
  p.takeWhile (fun b => b ≠ 0)

/-- Push-packet `Meta`: ssid bytes (null-terminated prefix of `p[14:46]`),
`mac = p[46:52]`, device-type byte `p[52]`, config byte `p[53]`.

The source stores `device_type_from_enum(p[52])`; that function is imported
from `const` but not defined under the sources.  Modelled from the spec: the
Meta sub-structure carries a "device-type byte", so the raw byte is kept. -/
structure Meta where
  ssid : List Nat
  mac : List Nat
  type : Nat
  cfg : Nat
deriving DecidableEq, Repr

/-- Model of `Meta.__init__`: ssid decode (UTF-8, may raise `UnicodeDecodeError`),
then mac slice, device-type byte, config byte. -/
def Meta.make (p : List Nat) : Except PExc Meta := do
  let ssidBytes := toNullTerminated (pySlice p 14 46)
  if validUtf8 ssidBytes then
    let mac := pySlice p 46 52
    let ty ← pyIndex p 52
    let cfg ← pyIndex p 53
    return { ssid := ssidBytes, mac := mac, type := ty, cfg := cfg }
  else
    throw .unicodeDecodeError

/-- Fields of `PeriodicUpdatePacket`. -/
structure PeriodicUpdatePacket where
  meta : Meta
  version : Nat
  reg_num : Nat
  reg_idx : Nat
  registers : List Nat
deriving DecidableEq, Repr

/-- Model of `PeriodicUpdatePacket.__init__`: `version = p[54:56]` big-endian,
`reg_num = p[56]` (an index access, `IndexError` when `len(p) < 57`),
`reg_idx = p[57:59]` big-endian, `registers = ball_u16(p[59:187], "big")`. -/
def periodicPacket (p : List Nat) : Except PExc PeriodicUpdatePacket := do
  let meta ← Meta.make p
  let version := fromBytesBE (pySlice p 54 56)
  let reg_num ← pyIndex p 56
  let reg_idx := fromBytesBE (pySlice p 57 59)
  let registers ← ball_u16 (pySlice p 59 187)
  return { meta := meta, version := version, reg_num := reg_num,
           reg_idx := reg_idx, registers := registers }

/-- Model of `EventData` (the optional `sensor_id` is never set by the decoder). -/
structure EventData where
  register_index : Nat
  register_value : Nat
deriving DecidableEq, Repr

instance : Inhabited EventData := ⟨⟨0, 0⟩⟩

/-- Fields of `EventPacketPacket`. -/
structure EventPacketPacket where
  meta : Meta
  number_of_events : Nat
  events : List EventData
deriving DecidableEq, Repr

/-- Model of `EventPacketPacket.__init__`: `number_of_events = p[54]`, then for
`i in range(number_of_events)` the pair is sliced at
`55 + (i - 1) * 4` and `57 + (i - 1) * 4` — signed arithmetic, exactly as in
the source (`EVT_REG_IDX_OFFSET + (i - 1) * 4`). -/
def eventPacket (p : List Nat) : Except PExc EventPacketPacket :=
  match Meta.make p with
  | .error e => .error e
  | .ok meta =>
    match pyIndex p 54 with
    | .error e => .error e
    | .ok n =>
      .ok { meta := meta
            number_of_events := n
            events := (List.range n).map (fun (i : Nat) =>
              let idxOff : Int := 55 + ((i : Int) - 1) * 4
              let valOff : Int := 57 + ((i : Int) - 1) * 4
              { register_index := fromBytesBE (pySliceI p idxOff (idxOff + 2)),
                register_value := fromBytesBE (pySliceI p valOff (valOff + 2)) }) }

/-- Result of `packet_builder.parse_server_recv`. -/
inductive ServerRecvPacket where
  | periodic (pkt : PeriodicUpdatePacket) : ServerRecvPacket
  | event (pkt : EventPacketPacket) : ServerRecvPacket
deriving DecidableEq, Repr

/-- Model of `packet_builder.parse_server_recv`: `None` for datagrams shorter than 55
bytes; otherwise dispatch on the function-code byte `p[7]` — `0x2E` builds an
event packet, `0x24` a periodic packet, anything else returns `None`. -/
def parse_server_recv (p : List Nat) : Except PExc (Option ServerRecvPacket) :=
  if p.length < 55 then .ok none
  else
    match pyIndex p 7 with
    | .error e => .error e
    | .ok fc =>
      if fc = 0x2E then (eventPacket p).map (fun pkt => some (.event pkt))
      else if fc = 0x24 then (periodicPacket p).map (fun pkt => some (.periodic pkt))
      else .ok none

/-! ## Poll-response decoding (`packet_builder.extract_registers`) -/

/-- Model of `packet_builder.extract_registers`: reads the status byte `p[7]`
(an `IndexError` when `len(p) < 8`); raises `ModbusNotEnabledError` when bit
`0x08` is set; raises `PacketSizeError(137, len(p))` when the length is not
137; otherwise returns the 64 big-endian u16 registers at offsets
`9 + 2*i`. -/
def extract_registers (p : List Nat) : Except PExc (List Nat) :=
  match pyIndex p 7 with
  | .error e => .error e
  | .ok fc =>
    if fc &&& 0x08 ≠ 0 then .error .modbusNotEnabled
    else if p.length ≠ 137 then .error (.packetSize 137 p.length)
    else .ok ((List.range 64).map fun i =>
      fromBytesBE (pySlice p (9 + 2 * i) (9 + 2 * i + 2)))

/-! ## Request framing (`packet_builder.pid` / `_build_header` / `poll`) -/

/-- Model of `packet_builder.pid` as a state transition on the class counter `_pid`:
returns the fresh id and the new counter value (the counter and the returned
id coincide). -/
def pidStep (s : Nat) : Nat × Nat :=
  let s0 := if s ≥ 0xFF then 0 else s
  (s0 + 1, s0 + 1)

/-- The ids produced by `n` successive `pid()` calls starting from counter
state `s`. -/
def pidIds (s : Nat) : Nat → List Nat
  | 0 => []
  | n + 1 =>
    let (id, s1) := pidStep s
    id :: pidIds s1 n

/-- Model of `packet_builder._build_header(dlen)`: sequence id (2 bytes big-endian),
two zero bytes, `dlen` (2 bytes big-endian), then the checksum byte
`sum(h) & 0xFF`.  Returns the header and the new pid-counter state. -/
def build_header (dlen : Nat) (s : Nat) : List Nat × Nat :=
  let id := (pidStep s).1
  let h := toBytes2BE id ++ [0x00, 0x00] ++ toBytes2BE dlen
  (h ++ [h.sum &&& 0xFF], (pidStep s).2)

/-- Model of `packet_builder.poll()`: header with `dlen = 6`, function code `0x03`,
start register `0` (2 bytes big-endian), count `64` (2 bytes big-endian). -/
def pollFrame (s : Nat) : List Nat × Nat :=
  ((build_header 6 s).1 ++ [0x03] ++ toBytes2BE 0 ++ toBytes2BE 64,
   (build_header 6 s).2)

/-! ## Transport client (`sender.send`) -/

/-- What the peer does on one receive: time out, or deliver a datagram. -/
inductive AttemptResult where
  | timeout : AttemptResult
  | reply (p : List Nat) : AttemptResult

/-- A peer that never replies: every receive times out. -/
def alwaysTimingOut : Nat → AttemptResult := fun _ => .timeout

/-- Outcome of `sender.send`. -/
inductive SendResult where
  | ok (p : List Nat) : SendResult
  | errModbusNotEnabled : SendResult
  | errTimeout : SendResult
  | errIndex : SendResult
deriving DecidableEq, Repr

/-- The `while retry:` loop of `sender.send`: `recv k` is the result of the
receive on the `k`-th (0-based) send attempt; each iteration performs one
`sendto`; on `socket.timeout` the budget is decremented and the loop
re-sends; on a reply, bit `0x08` of `resp[7]` raises `ModbusNotEnabledError`,
otherwise the reply is returned (an out-of-range `resp[7]` propagates as
`IndexError`).  Returns the outcome together with the total number of send
attempts performed. -/
def sendAux (recv : Nat → AttemptResult) : Nat → Nat → SendResult × Nat
  | 0, k => (.errTimeout, k)
  | retry + 1, k =>
    match recv k with
    | .timeout => sendAux recv retry (k + 1)
    | .reply p =>
      match pyIndex p 7 with
      | .error _ => (.errIndex, k + 1)
      | .ok b => if b &&& 0x08 ≠ 0 then (.errModbusNotEnabled, k + 1) else (.ok p, k + 1)

/-- Model of `sender.send(data, ip, retry=n)` against a peer described by `recv`:
outcome and number of send attempts. -/
def sendModel (recv : Nat → AttemptResult) (retry : Nat) : SendResult × Nat :=
  sendAux recv retry 0

/-! ## Device session (`sihas_base.SihasBase` / `SihasProxy`) and debounced
poll cache (`util.Debouncer`) -/

/-- The network-level outcome of one `poll()` round-trip through
`sender.send`: a reply datagram, `socket.timeout`, `ModbusNotEnabledError`
raised by `send` itself, or any other exception. -/
inductive NetOutcome where
  | reply (resp : List Nat) : NetOutcome
  | timeout : NetOutcome
  | nak : NetOutcome
  | otherError : NetOutcome
deriving DecidableEq, Repr

/-- Model of `SihasBase.poll`: on a reply, `extract_registers` decodes it; success
stores availability `true` and returns the registers; every raised exception
(`ModbusNotEnabledError`, `socket.timeout`, and any other `Exception`,
including `IndexError` and `PacketSizeError`) is caught, availability ends up
`false` and `None` is returned — nothing propagates to the caller.
Returns `(returned value, availability after the call)`. -/
def basePoll (net : NetOutcome) : Option (List Nat) × Bool :=
  match net with
  | .reply resp =>
    match extract_registers resp with
    | .ok regs => (some regs, true)
    | .error _ => (none, false)
  | _ => (none, false)

/-- Model of `SihasBase.command`: `send` succeeding with a truthy (non-empty) reply
sets availability `true` and returns `True`; every failure path ends with
availability `false` and `False`.  Returns `(return value, availability)`. -/
def baseCommand (net : NetOutcome) : Bool × Bool :=
  match net with
  | .reply resp => if resp = [] then (false, false) else (true, true)
  | _ => (false, false)

/-- State of `util.Debouncer`: last-executed timestamp and window duration, in
seconds (modelled over ℚ; Python compares `datetime` differences as float
seconds). -/
structure Debouncer where
  lastExcuted : ℚ
  duration : ℚ
deriving DecidableEq

/-- Model of `Debouncer.run(force)` called at wall-clock time `t`: fires when `force`
is set or strictly more than `duration` seconds elapsed since
`lastExcuted`; firing updates the timestamp and invokes the callback.
Returns whether it fired and the new state. -/
def Debouncer.run (d : Debouncer) (force : Bool) (t : ℚ) : Bool × Debouncer :=
  if force = true ∨ t - d.lastExcuted > d.duration then
    (true, { d with lastExcuted := t })
  else
    (false, d)

/-- State of `SihasProxy`: availability flag, cached register bank, debouncer. -/
structure ProxyState where
  available : Bool
  registers : List Nat
  deb : Debouncer
deriving DecidableEq

/-- Model of `SihasProxy.__init__` at construction time `t0` with debounce window
`dur`: unavailable, registers `[0] * 64`, and a `Debouncer` whose
`_last_excuted` is initialised to the construction instant. -/
def proxyInit (t0 dur : ℚ) : ProxyState :=
  { available := false
    registers := List.replicate 64 0
    deb := { lastExcuted := t0, duration := dur } }

/-- Model of `SihasProxy._internal_update`: polls; the walrus `if registers :=
self.poll():` stores the result only when it is truthy (non-`None` and
non-empty). -/
def internalUpdate (s : ProxyState) (net : NetOutcome) : ProxyState :=
  let (res, avail) := basePoll net
  let s1 := { s with available := avail }
  match res with
  | some regs => if regs = [] then s1 else { s1 with registers := regs }
  | none => s1

/-- Model of `SihasProxy.update(force)` called at time `t`: runs the debouncer, whose
callback is `_internal_update` with network outcome `net`.  Returns the new
state and whether an underlying poll was performed. -/
def proxyUpdate (s : ProxyState) (force : Bool) (t : ℚ) (net : NetOutcome) :
    ProxyState × Bool :=
  let (fired, deb1) := s.deb.run force t
  if fired then (internalUpdate { s with deb := deb1 } net, true)
  else ({ s with deb := deb1 }, false)

/-- Model of `SihasProxy.command`: executes the base command and then
`_internal_update()` directly — no debouncer involved. -/
def proxyCommand (s : ProxyState) (cmdNet pollNet : NetOutcome) : ProxyState :=
  let (_ret, avail) := baseCommand cmdNet
  internalUpdate { s with available := avail } pollNet

/-- A burst of non-forced `update` calls at the given times (the network
outcome `net` is only consulted when the debouncer fires).  Returns the final
state and the number of underlying polls performed. -/
def processUpdates (net : NetOutcome) : ProxyState → List ℚ → ProxyState × Nat
  | s, [] => (s, 0)
  | s, t :: ts =>
    let (s1, fired) := proxyUpdate s false t net
    let (s2, k) := processUpdates net s1 ts
    (s2, (if fired then 1 else 0) + k)

/-! ## Concrete datagrams used as evaluation inputs -/

/-- A 60-byte all-zero datagram with the Periodic function code `0x24` at
offset 7. -/
def periodic60 : List Nat :=
  List.replicate 7 0 ++ 0x24 :: List.replicate 52 0

/-- A 55-byte all-zero datagram with the Event function code `0x2E` at
offset 7 and `number_of_events = 1` at offset 54. -/
def eventExample : List Nat :=
  List.replicate 7 0 ++ 0x2E :: (List.replicate 46 0 ++ [1])

/-- The packet the event decoder produces from `eventExample`: the single
pair is read from absolute offsets 51 and 53, so the value slice
`p[53:55]` picks up the count byte at offset 54 and decodes to 1. -/
def eventExamplePkt : EventPacketPacket :=
  { meta := { ssid := [], mac := List.replicate 6 0, type := 0, cfg := 0 }
    number_of_events := 1
    events := [⟨0, 1⟩] }

/-! ## Helper lemmas -/

theorem fromBytesBE_pair (x y : Nat) : fromBytesBE [x, y] = 256 * x + y := by
  simp [fromBytesBE]
  ring

theorem pySlice_pair (p : List Nat) (a : Nat) (h : a + 2 ≤ p.length) :
    pySlice p a (a + 2) = [p.getD a 0, p.getD (a + 1) 0] := by
  have h1 : a < p.length := by omega
  have h2 : a + 1 < p.length := by omega
  have e1 : p.getD a 0 = p[a] := by
    rw [List.getD_eq_getElem?_getD, List.getElem?_eq_getElem h1]
    rfl
  have e2 : p.getD (a + 1) 0 = p[a + 1] := by
    rw [List.getD_eq_getElem?_getD, List.getElem?_eq_getElem h2]
    rfl
  unfold pySlice
  rw [List.drop_take, show a + 2 - a = 2 from by omega,
      List.drop_eq_getElem_cons h1, List.drop_eq_getElem_cons h2,
      List.take_succ_cons, List.take_succ_cons, List.take_zero, e1, e2]

theorem getD_map_range {α : Type} (f : Nat → α) (n i : Nat) (h : i < n) (d : α) :
    ((List.range n).map f).getD i d = f i := by
  rw [List.getD_eq_getElem?_getD, List.getElem?_map, List.getElem?_range h]
  rfl

theorem pySliceI_natCast (p : List Nat) (a b : Nat) :
    pySliceI p (a : Int) (b : Int) = pySlice p a b := by
  unfold pySliceI pySlice
  have ha : ¬((a : Int) < 0) := by omega
  have hb : ¬((b : Int) < 0) := by omega
  simp [ha, hb]

theorem extract_registers_ok_length (p regs : List Nat)
    (h : extract_registers p = .ok regs) : regs.length = 64 := by
  unfold extract_registers at h
  split at h
  · exact absurd h (by simp)
  · split at h
    · exact absurd h (by simp)
    · split at h
      · exact absurd h (by simp)
      · simp only [Except.ok.injEq] at h
        subst h
        simp

theorem basePoll_none_snd (net : NetOutcome) (h : (basePoll net).1 = none) :
    (basePoll net).2 = false := by
  cases net with
  | reply resp =>
    cases hx : extract_registers resp with
    | ok regs => simp [basePoll, hx] at h
    | error e => simp [basePoll, hx]
  | timeout => rfl
  | nak => rfl
  | otherError => rfl

theorem sendAux_alwaysTimingOut (r k : Nat) :
    sendAux alwaysTimingOut r k = (.errTimeout, k + r) := by
  induction r generalizing k with
  | zero => simp [sendAux]
  | succ n ih =>
    show sendAux alwaysTimingOut n (k + 1) = _
    rw [ih (k + 1)]
    congr 1
    omega

theorem proxyUpdate_skip (s : ProxyState) (t : ℚ) (net : NetOutcome)
    (h : t - s.deb.lastExcuted ≤ s.deb.duration) :
    proxyUpdate s false t net = (s, false) := by
  unfold proxyUpdate Debouncer.run
  have hc : ¬(false = true ∨ t - s.deb.lastExcuted > s.deb.duration) := by
    push_neg
    exact ⟨Bool.false_ne_true, h⟩
  rw [if_neg hc]
  simp

theorem processUpdates_skip (s : ProxyState) (net : NetOutcome) (ts : List ℚ)
    (h : ∀ t ∈ ts, t - s.deb.lastExcuted ≤ s.deb.duration) :
    processUpdates net s ts = (s, 0) := by
  induction ts with
  | nil => rfl
  | cons t ts ih =>
    have h1 := proxyUpdate_skip s t net (h t (List.mem_cons_self t ts))
    have h2 := ih (fun u hu => h u (List.mem_cons_of_mem t hu))
    unfold processUpdates
    simp [h1, h2]

theorem parse_short_none (p : List Nat) (h : p.length < 55) :
    parse_server_recv p = .ok none := by
  unfold parse_server_recv
  rw [if_pos h]

theorem pyIndex_of_lt (p : List Nat) (i : Nat) (h : i < p.length) :
    pyIndex p i = .ok (p.getD i 0) := by
  unfold pyIndex
  rw [dif_pos h]
  congr 1
  rw [List.getD_eq_getElem?_getD, List.getElem?_eq_getElem h]
  rfl

theorem extract_registers_of_len (p : List Nat) (h : 8 ≤ p.length) :
    extract_registers p =
      (if p.getD 7 0 &&& 0x08 ≠ 0 then .error .modbusNotEnabled
       else if p.length ≠ 137 then .error (.packetSize 137 p.length)
       else .ok ((List.range 64).map fun i =>
         fromBytesBE (pySlice p (9 + 2 * i) (9 + 2 * i + 2)))) := by
  unfold extract_registers
  rw [pyIndex_of_lt p 7 (by omega)]

theorem pidStep_fst_le (s : Nat) : (pidStep s).1 ≤ 255 := by
  unfold pidStep
  by_cases h : s ≥ 0xFF
  · simp [h]
  · simp [h]
    omega


theorem extract_registers_cases (p : List Nat) (h : 8 ≤ p.length) :
    (p.getD 7 0 &&& 0x08 ≠ 0 → extract_registers p = .error .modbusNotEnabled) ∧
    (p.getD 7 0 &&& 0x08 = 0 → p.length ≠ 137 →
      extract_registers p = .error (.packetSize 137 p.length)) ∧
    (p.getD 7 0 &&& 0x08 = 0 → p.length = 137 →
      extract_registers p = .ok ((List.range 64).map fun i =>
        fromBytesBE (pySlice p (9 + 2 * i) (9 + 2 * i + 2)))) := by
  have he := extract_registers_of_len p h
  refine ⟨?_, ?_, ?_⟩
  · intro hb
    rw [he, if_pos hb]
  · intro hb hl
    rw [he, if_neg (fun hc => hc hb), if_pos hl]
  · intro hb hl
    rw [he, if_neg (fun hc => hc hb), if_neg (fun hc => hc hl)]

/-! ## Claim theorems -/

/-- C1: for every response `p` with `len(p) ≥ 8`, `extract_registers` raises
`ModbusNotEnabledError` iff bit `0x08` of the status byte `p[7]` is set,
regardless of the length; when that bit is clear it raises
`PacketSizeError(expect=137, actual=len(p))` iff `len(p) ≠ 137`; and when the
bit is clear and `len(p) = 137` it returns exactly 64 values, the `i`-th
being the big-endian decoding of `p[9+2i : 9+2i+2]`. -/
theorem C1_extract_registers (p : List Nat) (hlen : 8 ≤ p.length) :
    (extract_registers p = .error .modbusNotEnabled ↔ p.getD 7 0 &&& 0x08 ≠ 0) ∧
    (p.getD 7 0 &&& 0x08 = 0 →
      (extract_registers p = .error (.packetSize 137 p.length) ↔ p.length ≠ 137)) ∧
    (p.getD 7 0 &&& 0x08 = 0 → p.length = 137 →
      extract_registers p = .ok ((List.range 64).map fun i =>
        fromBytesBE (pySlice p (9 + 2 * i) (9 + 2 * i + 2))) ∧
      ∀ regs, extract_registers p = .ok regs →
        regs.length = 64 ∧
        ∀ i, i < 64 →
          regs.getD i 0 = 256 * p.getD (9 + 2 * i) 0 + p.getD (9 + 2 * i + 1) 0) := by
  obtain ⟨cNak, cSize, cOk⟩ := extract_registers_cases p hlen
  refine ⟨⟨?_, cNak⟩, ?_, ?_⟩
  · intro he
    by_cases hb : p.getD 7 0 &&& 0x08 = 0
    · exfalso
      by_cases hl : p.length = 137
      · rw [cOk hb hl] at he
        simp at he
      · rw [cSize hb hl] at he
        simp at he
    · exact hb
  · intro hb
    constructor
    · intro he
      by_cases hl : p.length = 137
      · rw [cOk hb hl] at he
        simp at he
      · exact hl
    · exact cSize hb
  · intro hb hl
    refine ⟨cOk hb hl, ?_⟩
    intro regs hr
    rw [cOk hb hl] at hr
    simp only [Except.ok.injEq] at hr
    subst hr
    refine ⟨by simp, ?_⟩
    intro i hi
    rw [getD_map_range _ _ _ hi, pySlice_pair p (9 + 2 * i) (by omega),
        fromBytesBE_pair]

/-- C1 witness: the all-zero 137-byte response decodes to 64 zero registers,
and the NAK iff instance holds there. -/
theorem C1_witness :
    (extract_registers (List.replicate 137 0) = .error .modbusNotEnabled ↔
      (List.replicate 137 0).getD 7 0 &&& 0x08 ≠ 0) ∧
    extract_registers (List.replicate 137 0) = .ok (List.replicate 64 0) := by
  constructor
  · exact (C1_extract_registers (List.replicate 137 0) (by decide)).1
  · have h := ((C1_extract_registers (List.replicate 137 0) (by decide)).2.2
      (by decide) (by decide)).1
    rw [h]
    decide

/-- C2 counterexample: with `retry=3` (the budget `poll`/`command` pass) an
always-timing-out peer sees exactly 3 send attempts, not 4: the `while
retry:` loop of `sender.send` decrements the budget once per attempt and
performs no extra initial attempt. -/
theorem C2_counterexample :
    sendModel alwaysTimingOut 3 = (.errTimeout, 3) ∧ (3 : Nat) ≠ 4 := by
  constructor
  · decide
  · decide

/-- C2 (amended): the `retry` parameter counts total send attempts: against
an always-timing-out peer, `send` with `retry=r` performs exactly `r` send
attempts (so 3 attempts for the budget `retry=3` that `poll` and `command`
pass) and then fails with `socket.timeout`. -/
theorem C2_send_attempts :
    sendModel alwaysTimingOut 3 = (.errTimeout, 3) ∧
    (∀ r : Nat, sendModel alwaysTimingOut r = (.errTimeout, r)) := by
  constructor
  · decide
  · intro r
    unfold sendModel
    simpa using sendAux_alwaysTimingOut r 0

/-- C9: every id `pid()` returns is in `1..255` and never `0`; from the
initial counter state `0`, 256 consecutive calls yield `1, 2, …, 255, 1`;
each call returns the previous counter plus one except that after `255` it
wraps to `1`. -/
theorem C9_pid :
    (∀ s : Nat, (pidStep s).1 ≠ 0 ∧ 1 ≤ (pidStep s).1 ∧ (pidStep s).1 ≤ 255) ∧
    pidIds 0 256 = (List.range 255).map (fun k => k + 1) ++ [1] ∧
    (∀ s : Nat, 1 ≤ s → s ≤ 255 →
      (pidStep s).1 = if s = 255 then 1 else s + 1) := by
  refine ⟨?_, by decide, ?_⟩
  · intro s
    unfold pidStep
    by_cases h : s ≥ 0xFF
    · simp [h]
    · simp [h]
      omega
  · intro s h1 h2
    unfold pidStep
    by_cases h : s = 255
    · simp [h]
    · have hx : ¬(s ≥ 0xFF) := by omega
      simp [hx, h]

/-- C9 witness: the wraparound case `255 → 1` and an ordinary increment,
obtained from the theorem. -/
theorem C9_witness : (pidStep 255).1 = 1 ∧ (pidStep 1).1 = 2 := by
  constructor
  · have h := C9_pid.2.2 255 (by decide) (by decide)
    simpa using h
  · have h := C9_pid.2.2 1 (by decide) (by decide)
    simpa using h

/-- C3 counterexample: the encoded poll frame has 12 bytes, not 13 (its own
component list — 7-byte header, 1 function byte, two u16 fields — sums to
12). -/
theorem C3_counterexample :
    (pollFrame 0).1.length = 12 ∧ ¬((pollFrame 0).1.length = 13) := by
  constructor
  · decide
  · decide

/-- C3 (amended): for every pid-counter state, `poll()` produces exactly
12 bytes — a 7-byte header followed by the function code `0x03`, the
big-endian u16 start register `0x0000` and the big-endian u16 count `0x0040`
— and the header's 7th byte is the checksum, the low byte of the sum of the
preceding 6 header bytes.  (The claimed total of 13 bytes is off by one:
7 + 1 + 2 + 2 = 12.) -/
theorem C3_poll_frame (s : Nat) :
    (pollFrame s).1.length = 12 ∧
    (pollFrame s).1.drop 7 = [0x03, 0x00, 0x00, 0x00, 0x40] ∧
    (pollFrame s).1.getD 6 0 = ((pollFrame s).1.take 6).sum &&& 0xFF := by
  have h255 := pidStep_fst_le s
  have hdiv : (pidStep s).1 / 256 = 0 := Nat.div_eq_of_lt (by omega)
  have hmod : (pidStep s).1 % 256 = (pidStep s).1 := Nat.mod_eq_of_lt (by omega)
  have hframe : (pollFrame s).1 =
      [0, (pidStep s).1, 0, 0, 0, 6,
       ((pidStep s).1 + 6) &&& 0xFF, 0x03, 0, 0, 0, 64] := by
    show ((build_header 6 s).1 ++ [0x03] ++ toBytes2BE 0 ++ toBytes2BE 64) = _
    unfold build_header toBytes2BE
    norm_num [hdiv, hmod]
  rw [hframe]
  refine ⟨by simp, by simp, ?_⟩
  norm_num

/-- C4: a session starts with availability `false`; a successful poll (a
reply that `extract_registers` decodes) yields availability `true` and the
64-register bank; every failed poll (NAK, timeout, or any decode error —
all caught by the `except` clauses, so nothing is raised to the caller)
yields `None` and availability `false`; and a failed poll leaves the cached
register bank of the proxy unchanged. -/
theorem C4_availability :
    (∀ t0 dur : ℚ, (proxyInit t0 dur).available = false) ∧
    (∀ resp regs : List Nat, extract_registers resp = .ok regs →
      basePoll (.reply resp) = (some regs, true) ∧ regs.length = 64) ∧
    (∀ net : NetOutcome,
      (∀ resp : List Nat, net = .reply resp →
        ∃ e, extract_registers resp = .error e) →
      basePoll net = (none, false)) ∧
    (∀ (s : ProxyState) (net : NetOutcome), (basePoll net).1 = none →
      (internalUpdate s net).registers = s.registers ∧
      (internalUpdate s net).available = false) := by
  refine ⟨fun t0 dur => rfl, ?_, ?_, ?_⟩
  · intro resp regs h
    exact ⟨by simp [basePoll, h], extract_registers_ok_length resp regs h⟩
  · intro net hfail
    cases net with
    | reply resp =>
      obtain ⟨e, he⟩ := hfail resp rfl
      simp [basePoll, he]
    | timeout => rfl
    | nak => rfl
    | otherError => rfl
  · intro s net h1
    have h2 := basePoll_none_snd net h1
    unfold internalUpdate
    cases hb : basePoll net with
    | mk res avail =>
      rw [hb] at h1 h2
      simp at h1 h2
      subst h1
      subst h2
      simp

/-- C4 witness: the all-zero 137-byte reply is a successful poll (availability
`true`, 64 registers); a timeout is a failed poll (availability `false`,
`None`) and leaves the cached bank of a freshly constructed proxy
unchanged. -/
theorem C4_witness :
    basePoll (.reply (List.replicate 137 0)) = (some (List.replicate 64 0), true) ∧
    basePoll .timeout = (none, false) ∧
    (internalUpdate (proxyInit 0 3) .timeout).registers = (proxyInit 0 3).registers := by
  refine ⟨?_, ?_, ?_⟩
  · exact (C4_availability.2.1 (List.replicate 137 0) (List.replicate 64 0)
      (by decide)).1
  · exact C4_availability.2.2.1 .timeout (fun resp hr => by cases hr)
  · exact (C4_availability.2.2.2 (proxyInit 0 3) .timeout (by decide)).1

/-- C5: within the debounce window after an actual poll (the debouncer's
`_last_excuted` is set exactly when it fires), every `update(force=False)`
performs no underlying poll and leaves the state — in particular the cached
bank — untouched; any burst of such calls performs zero polls;
`update(force=True)` always polls, regardless of elapsed time, and records
the poll time; and `command` always runs an immediate poll with no debouncer
check at all (the debouncer state is not even consulted or modified). -/
theorem C5_debounce :
    (∀ (s : ProxyState) (t : ℚ) (net : NetOutcome),
      t - s.deb.lastExcuted ≤ s.deb.duration →
      proxyUpdate s false t net = (s, false)) ∧
    (∀ (s : ProxyState) (net : NetOutcome) (ts : List ℚ),
      (∀ t ∈ ts, t - s.deb.lastExcuted ≤ s.deb.duration) →
      processUpdates net s ts = (s, 0)) ∧
    (∀ (s : ProxyState) (t : ℚ) (net : NetOutcome),
      (proxyUpdate s true t net).2 = true ∧
      ((proxyUpdate s true t net).1).deb.lastExcuted = t) ∧
    (∀ (s : ProxyState) (cmdNet : NetOutcome) (resp regs : List Nat),
      extract_registers resp = .ok regs →
      (proxyCommand s cmdNet (.reply resp)).registers = regs ∧
      (proxyCommand s cmdNet (.reply resp)).deb = s.deb) := by
  refine ⟨proxyUpdate_skip, processUpdates_skip, ?_, ?_⟩
  · intro s t net
    constructor
    · simp [proxyUpdate, Debouncer.run]
    · simp [proxyUpdate, Debouncer.run, internalUpdate]
      cases hb : basePoll net with
      | mk res avail =>
        cases res with
        | none => simp
        | some regs =>
          by_cases hr : regs = [] <;> simp [hr]
  · intro s cmdNet resp regs h
    have hne : regs ≠ [] := by
      have := extract_registers_ok_length resp regs h
      intro hc
      rw [hc] at this
      simp at this
    constructor
    · simp [proxyCommand, internalUpdate, basePoll, h, hne]
    · simp [proxyCommand, internalUpdate, basePoll, h, hne]

/-- C5 witness: with a fresh proxy (window 3s, last poll at time 0), a
non-forced update at `t = 2` performs no poll and changes nothing; a forced
update at `t = 2` polls; and a command refreshes the bank from the reply
immediately. -/
theorem C5_witness :
    proxyUpdate (proxyInit 0 3) false 2 .timeout = (proxyInit 0 3, false) ∧
    (proxyUpdate (proxyInit 0 3) true 2 .timeout).2 = true ∧
    (proxyCommand (proxyInit 0 3) .timeout
      (.reply (List.replicate 137 0))).registers = List.replicate 64 0 := by
  refine ⟨?_, ?_, ?_⟩
  · exact C5_debounce.1 (proxyInit 0 3) 2 .timeout (by norm_num [proxyInit])
  · exact (C5_debounce.2.2.1 (proxyInit 0 3) 2 .timeout).1
  · exact (C5_debounce.2.2.2 (proxyInit 0 3) .timeout (List.replicate 137 0)
      (List.replicate 64 0) (by decide)).1

/-- C10: the `Debouncer` initialises `_last_excuted` to the construction
instant, so a freshly constructed proxy's window is already open: every
`update(force=False)` within the first `duration` seconds after construction
performs no poll (`run` returns `False`, the callback is never invoked), and
during that time the exposed register bank is the initial all-zero snapshot
of exactly 64 entries. -/
theorem C10_fresh_cache (t0 dur : ℚ) (net : NetOutcome) (ts : List ℚ)
    (h : ∀ t ∈ ts, t - t0 ≤ dur) :
    processUpdates net (proxyInit t0 dur) ts = (proxyInit t0 dur, 0) ∧
    (∀ t : ℚ, t - t0 ≤ dur →
      proxyUpdate (proxyInit t0 dur) false t net = (proxyInit t0 dur, false)) ∧
    (proxyInit t0 dur).deb.lastExcuted = t0 ∧
    (proxyInit t0 dur).registers = List.replicate 64 0 ∧
    (proxyInit t0 dur).registers.length = 64 := by
  refine ⟨processUpdates_skip _ net ts h, ?_, rfl, rfl, by simp [proxyInit]⟩
  intro t ht
  exact proxyUpdate_skip _ t net ht

/-- C10 witness: window 3s, constructed at time 0; three updates at times
1, 2, 3 perform zero polls and leave the all-zero bank in place. -/
theorem C10_witness :
    processUpdates .timeout (proxyInit 0 3) [1, 2, 3] = (proxyInit 0 3, 0) ∧
    (proxyInit 0 3).registers = List.replicate 64 0 := by
  have hmem : ∀ t ∈ ([1, 2, 3] : List ℚ), t - 0 ≤ 3 := by
    intro t ht
    simp only [List.mem_cons, List.not_mem_nil, or_false] at ht
    rcases ht with rfl | rfl | rfl <;> norm_num
  have h := C10_fresh_cache 0 3 .timeout [1, 2, 3] hmem
  exact ⟨h.1, h.2.2.2.1⟩

/-- C6 counterexample: `extract_registers` applied to the empty input reads
`p[7]` before any length check, i.e. it performs the out-of-bounds index
access (`IndexError`) that the claim rules out, instead of returning one of
its typed protocol errors. -/
theorem C6_counterexample :
    extract_registers [] = .error .indexError := by
  decide

/-- C6 (amended): `decode_push` fails closed for undersized input (shorter
than 55 bytes it returns `None`, with no out-of-bounds access), and
`decode_registers` fails closed only for input of length ≥ 8 (returning one
of its typed errors or the registers); for input shorter than 8 bytes it
performs an out-of-bounds access at index 7 (`IndexError`) rather than
returning a typed error. -/
theorem C6_fail_closed :
    (∀ p : List Nat, p.length < 55 → parse_server_recv p = .ok none) ∧
    (∀ p : List Nat, p.length < 8 → extract_registers p = .error .indexError) ∧
    (∀ p : List Nat, 8 ≤ p.length →
      extract_registers p = .error .modbusNotEnabled ∨
      extract_registers p = .error (.packetSize 137 p.length) ∨
      extract_registers p = .ok ((List.range 64).map fun i =>
        fromBytesBE (pySlice p (9 + 2 * i) (9 + 2 * i + 2)))) := by
  refine ⟨parse_short_none, ?_, ?_⟩
  · intro p h
    unfold extract_registers pyIndex
    rw [dif_neg (by omega)]
  · intro p h
    obtain ⟨cNak, cSize, cOk⟩ := extract_registers_cases p h
    by_cases hb : p.getD 7 0 &&& 0x08 = 0
    · by_cases hl : p.length = 137
      · exact Or.inr (Or.inr (cOk hb hl))
      · exact Or.inr (Or.inl (cSize hb hl))
    · exact Or.inl (cNak hb)

/-- C6 witness: a 40-byte datagram pushes decode to `None`; a 3-byte poll
response hits the out-of-bounds access; a 137-byte response falls in the
typed-outcome trichotomy. -/
theorem C6_witness :
    parse_server_recv (List.replicate 40 0) = .ok none ∧
    extract_registers (List.replicate 3 0) = .error .indexError ∧
    (extract_registers (List.replicate 137 1) = .error .modbusNotEnabled ∨
     extract_registers (List.replicate 137 1) =
       .error (.packetSize 137 (List.replicate 137 1).length) ∨
     extract_registers (List.replicate 137 1) =
       .ok ((List.range 64).map fun i =>
         fromBytesBE (pySlice (List.replicate 137 1) (9 + 2 * i) (9 + 2 * i + 2)))) := by
  refine ⟨C6_fail_closed.1 _ (by decide), C6_fail_closed.2.1 _ (by decide), ?_⟩
  exact C6_fail_closed.2.2 (List.replicate 137 1) (by decide)

/-- C7 counterexample: the 60-byte all-zero datagram with function byte
`0x24` at offset 7 does not decode to a Periodic packet: the periodic
constructor's `ball_u16` call evaluates `p % 2` on the 1-byte register
slice, which raises `TypeError`, so `parse_server_recv` propagates an
exception instead of returning a packet. -/
theorem C7_counterexample :
    periodic60.length = 60 ∧ periodic60.getD 7 0 = 0x24 ∧
    parse_server_recv periodic60 = .error .typeError := by
  refine ⟨by decide, by decide, by decide⟩

/-- C7 (amended): `decode_push` returns `None` for every datagram shorter
than 55 bytes, and `None` for any datagram (of length ≥ 55) whose
function-code byte at offset 7 is neither `0x24` nor `0x2E`; but a 60-byte
datagram with function byte `0x24` raises an error from the periodic
constructor (see the counterexample) instead of returning a Periodic
packet. -/
theorem C7_parse_push :
    (∀ p : List Nat, p.length < 55 → parse_server_recv p = .ok none) ∧
    (∀ p : List Nat, 55 ≤ p.length → p.getD 7 0 ≠ 0x24 → p.getD 7 0 ≠ 0x2E →
      parse_server_recv p = .ok none) := by
  refine ⟨parse_short_none, ?_⟩
  intro p hl h24 h2E
  unfold parse_server_recv
  rw [if_neg (by omega), pyIndex_of_lt p 7 (by omega)]
  simp only [List.getD_eq_getElem?_getD] at h24 h2E
  simp [h24, h2E]

/-- C7 witness: a 20-byte datagram and a 55-byte datagram with function
byte `0x00` both decode to `None`. -/
theorem C7_witness :
    parse_server_recv (List.replicate 20 0) = .ok none ∧
    parse_server_recv (List.replicate 55 0) = .ok none := by
  constructor
  · exact C7_parse_push.1 _ (by decide)
  · exact C7_parse_push.2 (List.replicate 55 0) (by decide) (by decide) (by decide)

/-- C8: the event decoder iterates `i` from `0` to `number_of_events - 1`
and reads each (register-index, register-value) pair at the signed byte
offsets `55 + (i - 1) * 4` and `57 + (i - 1) * 4` — a per-event relative
offset of `(i - 1) * 4`, which for `i = 0` is negative, so the first pair is
read from absolute offsets 51 and 53 rather than from the event-array base
at 55 and 57. -/
theorem C8_event_offsets (p : List Nat) (pkt : EventPacketPacket)
    (h : eventPacket p = .ok pkt) :
    pkt.events.length = pkt.number_of_events ∧
    (∀ i, i < pkt.number_of_events →
      (pkt.events.getD i default).register_index =
        fromBytesBE (pySliceI p (55 + ((i : Int) - 1) * 4)
          (55 + ((i : Int) - 1) * 4 + 2)) ∧
      (pkt.events.getD i default).register_value =
        fromBytesBE (pySliceI p (57 + ((i : Int) - 1) * 4)
          (57 + ((i : Int) - 1) * 4 + 2)) ∧
      (pkt.events.getD i default).register_index =
        fromBytesBE (pySlice p (51 + 4 * i) (53 + 4 * i)) ∧
      (pkt.events.getD i default).register_value =
        fromBytesBE (pySlice p (53 + 4 * i) (55 + 4 * i))) ∧
    (0 < pkt.number_of_events →
      (pkt.events.getD 0 default).register_index = fromBytesBE (pySlice p 51 53) ∧
      (pkt.events.getD 0 default).register_value = fromBytesBE (pySlice p 53 55)) := by
  unfold eventPacket at h
  cases hm : Meta.make p with
  | error e =>
    rw [hm] at h
    exact Except.noConfusion h
  | ok meta =>
    rw [hm] at h
    cases hn : pyIndex p 54 with
    | error e =>
      rw [hn] at h
      exact Except.noConfusion h
    | ok n =>
      rw [hn] at h
      have h2 := Except.ok.inj h
      subst h2
      dsimp only
      refine ⟨by simp, ?_, ?_⟩
      · intro i hi
        have e1 : (55 + ((i : Int) - 1) * 4) = ((51 + 4 * i : Nat) : Int) := by
          push_cast
          ring
        have e2 : (55 + ((i : Int) - 1) * 4 + 2) = ((53 + 4 * i : Nat) : Int) := by
          push_cast
          ring
        have e3 : (57 + ((i : Int) - 1) * 4) = ((53 + 4 * i : Nat) : Int) := by
          push_cast
          ring
        have e4 : (57 + ((i : Int) - 1) * 4 + 2) = ((55 + 4 * i : Nat) : Int) := by
          push_cast
          ring
        rw [getD_map_range _ n i hi]
        refine ⟨rfl, rfl, ?_, ?_⟩
        · show fromBytesBE (pySliceI p (55 + ((i : Int) - 1) * 4)
            (55 + ((i : Int) - 1) * 4 + 2)) = _
          rw [e2, e1, pySliceI_natCast]
        · show fromBytesBE (pySliceI p (57 + ((i : Int) - 1) * 4)
            (57 + ((i : Int) - 1) * 4 + 2)) = _
          rw [e4, e3, pySliceI_natCast]
      · intro hpos
        rw [getD_map_range _ n 0 hpos]
        constructor
        · show fromBytesBE (pySliceI p (55 + (((0 : Nat) : Int) - 1) * 4)
            (55 + (((0 : Nat) : Int) - 1) * 4 + 2)) = _
          have e1 : (55 + (((0 : Nat) : Int) - 1) * 4) = ((51 : Nat) : Int) := by
            norm_num
          have e2 : (55 + (((0 : Nat) : Int) - 1) * 4 + 2) = ((53 : Nat) : Int) := by
            norm_num
          rw [e2, e1, pySliceI_natCast]
        · show fromBytesBE (pySliceI p (57 + (((0 : Nat) : Int) - 1) * 4)
            (57 + (((0 : Nat) : Int) - 1) * 4 + 2)) = _
          have e3 : (57 + (((0 : Nat) : Int) - 1) * 4) = ((53 : Nat) : Int) := by
            norm_num
          have e4 : (57 + (((0 : Nat) : Int) - 1) * 4 + 2) = ((55 : Nat) : Int) := by
            norm_num
          rw [e4, e3, pySliceI_natCast]

/-- C8 witness: a 55-byte event datagram with one event decodes with the
first pair read from absolute offsets 51 and 53. -/
theorem C8_witness :
    eventPacket eventExample = .ok eventExamplePkt ∧
    (eventExamplePkt.events.getD 0 default).register_index =
      fromBytesBE (pySlice eventExample 51 53) ∧
    (eventExamplePkt.events.getD 0 default).register_value =
      fromBytesBE (pySlice eventExample 53 55) := by
  have hok : eventPacket eventExample = .ok eventExamplePkt := by decide
  have h := (C8_event_offsets eventExample eventExamplePkt hok).2.2 (by decide)
  exact ⟨hok, h.1, h.2⟩
